import Mathlib

/-!
Verification of the authoritative game core of the `copilot-game` repository
(Colyseus battle server plus Angular/ThreeJS client).

The TypeScript sources are shallowly embedded: JavaScript numbers are idealised
as exact rationals (`ℚ`), Colyseus `MapSchema` maps as association lists in
iteration order, and stateful methods as pure state-passing functions.  Each
definition carries a comment naming the source function it embeds.

Where the source compares `Math.sqrt d <= r` against a radius `r` that is a
positive configuration constant, the embedding compares `d ≤ r * r`, which is
equivalent for `0 ≤ r`; every such spot is marked.  Angles only enter the
combat logic through the pair `(Math.sin rot, Math.cos rot)`; since sine and
cosine of a rational angle are irrational, that facing pair is passed to the
embedded functions as an explicit unit vector `(dirX, dirZ)`.
-/

namespace CopilotGame

/-- 3D point/vector with exact rational coordinates, idealising the
`{ x, y, z }` JavaScript objects used throughout the server code. -/
structure Vec3 where
  x : ℚ
  y : ℚ
  z : ℚ
  deriving DecidableEq, Repr

/-- Squared Euclidean distance between two 3D points. -/
def distSq (a b : Vec3) : ℚ :=
  (b.x - a.x) ^ 2 + (b.y - a.y) ^ 2 + (b.z - a.z) ^ 2

/-- Point of the segment from `s` to `e` at parameter `t ∈ [0,1]`
(`lineStart + t * lineVec` in the source). -/
def segPoint (s e : Vec3) (t : ℚ) : Vec3 :=
  ⟨s.x + t * (e.x - s.x), s.y + t * (e.y - s.y), s.z + t * (e.z - s.z)⟩

/-- Squared length of the segment from `s` to `e` (the source's `lineLengthSq`). -/
def segLenSq (s e : Vec3) : ℚ :=
  (e.x - s.x) * (e.x - s.x) + (e.y - s.y) * (e.y - s.y) + (e.z - s.z) * (e.z - s.z)

/-- Dot product of the centre-relative vector `c - s` with the segment vector
`e - s` (the numerator of the source's projection parameter `t`). -/
def segDot (s e c : Vec3) : ℚ :=
  (c.x - s.x) * (e.x - s.x) + (c.y - s.y) * (e.y - s.y) + (c.z - s.z) * (e.z - s.z)

/-- Embeds `CombatService.lineIntersectsSphere`
(src/server/src/services/combat.service.ts, lines 19-84): project the
centre-relative vector onto the line, clamp the parameter `t` to `[0,1]`,
and compare the squared distance from the closest point to
`sphereRadius * sphereRadius`.  A zero-length line degenerates to a point
test, exactly as in the source (the source's `console.log` calls and the
`Math.sqrt` used only for logging carry no state and are dropped). -/
def lineIntersectsSphere (lineStart lineEnd sphereCenter : Vec3)
    (sphereRadius : ℚ) : Bool :=
  let lineVec : Vec3 :=
    ⟨lineEnd.x - lineStart.x, lineEnd.y - lineStart.y, lineEnd.z - lineStart.z⟩
  let toSphere : Vec3 :=
    ⟨sphereCenter.x - lineStart.x, sphereCenter.y - lineStart.y, sphereCenter.z - lineStart.z⟩
  let lineLengthSq :=
    lineVec.x * lineVec.x + lineVec.y * lineVec.y + lineVec.z * lineVec.z
  if lineLengthSq = 0 then
    let dSq := toSphere.x * toSphere.x + toSphere.y * toSphere.y + toSphere.z * toSphere.z
    decide (dSq ≤ sphereRadius * sphereRadius)
  else
    let t := (toSphere.x * lineVec.x + toSphere.y * lineVec.y + toSphere.z * lineVec.z)
      / lineLengthSq
    let tc := max 0 (min 1 t)
    let closestPoint : Vec3 :=
      ⟨lineStart.x + tc * lineVec.x, lineStart.y + tc * lineVec.y, lineStart.z + tc * lineVec.z⟩
    let distVec : Vec3 :=
      ⟨sphereCenter.x - closestPoint.x, sphereCenter.y - closestPoint.y,
        sphereCenter.z - closestPoint.z⟩
    let dSq := distVec.x * distVec.x + distVec.y * distVec.y + distVec.z * distVec.z
    decide (dSq ≤ sphereRadius * sphereRadius)

/-- Quadratic expansion of the squared distance from `c` to a point of the
segment: `|c - (s + t v)|² = L t² - 2 d t + k` with `L` the squared segment
length, `d` the projection numerator, `k = |c - s|²`. -/
theorem distSq_segPoint (s e c : Vec3) (t : ℚ) :
    distSq c (segPoint s e t) =
      segLenSq s e * t ^ 2 - 2 * segDot s e c * t + distSq s c := by
  simp only [distSq, segPoint, segLenSq, segDot]
  ring

/-- The clamped projection parameter minimises the quadratic
`L t² - 2 d t + k` over `t ∈ [0,1]` when `L > 0`. -/
theorem clamped_quadratic_min (L d k : ℚ) (hL : 0 < L) (t : ℚ)
    (h0 : 0 ≤ t) (h1 : t ≤ 1) :
    L * (max 0 (min 1 (d / L))) ^ 2 - 2 * d * (max 0 (min 1 (d / L))) + k ≤
      L * t ^ 2 - 2 * d * t + k := by
  rcases le_or_lt d 0 with hd | hd
  · have hdL : d / L ≤ 0 := div_nonpos_of_nonpos_of_nonneg hd hL.le
    have hmin : min 1 (d / L) = d / L := min_eq_right (hdL.trans zero_le_one)
    have hmax : max 0 (d / L) = 0 := max_eq_left hdL
    rw [hmin, hmax]
    nlinarith [mul_nonneg h0 (mul_nonneg hL.le h0)]
  · rcases le_or_lt L d with hLd | hdL
    · have h1' : (1 : ℚ) ≤ d / L := (one_le_div hL).mpr hLd
      have hmin : min 1 (d / L) = 1 := min_eq_left h1'
      rw [hmin]
      have hmax : max (0 : ℚ) 1 = 1 := max_eq_right zero_le_one
      rw [hmax]
      have hin : L * (1 + t) ≤ 2 * d := by
        nlinarith [mul_le_mul_of_nonneg_left h1 hL.le]
      have key : 0 ≤ (1 - t) * (2 * d - L * (1 + t)) :=
        mul_nonneg (by linarith) (by linarith)
      nlinarith [key]
    · have h01 : 0 ≤ d / L := le_of_lt (div_pos hd hL)
      have h11 : d / L ≤ 1 := (div_le_one hL).mpr hdL.le
      have hmin : min 1 (d / L) = d / L := min_eq_right h11
      have hmax : max 0 (d / L) = d / L := max_eq_right h01
      rw [hmin, hmax]
      have hexp : L * (d / L) ^ 2 - 2 * d * (d / L) + k = k - d ^ 2 / L := by
        field_simp
        ring
      rw [hexp]
      have hkey : L * t ^ 2 - 2 * d * t + k - (k - d ^ 2 / L) = (L * t - d) ^ 2 / L := by
        field_simp
        ring
      have hnn : 0 ≤ (L * t - d) ^ 2 / L := div_nonneg (sq_nonneg _) hL.le
      linarith [hkey, hnn]

/-- Rewriting lemma: `lineIntersectsSphere` in terms of `segLenSq`, `segDot`,
`segPoint` and `distSq`. -/
theorem lineIntersectsSphere_eq_ite (base tip center : Vec3) (r : ℚ) :
    lineIntersectsSphere base tip center r =
      if segLenSq base tip = 0 then
        decide (distSq center base ≤ r * r)
      else
        decide (distSq center
          (segPoint base tip
            (max 0 (min 1 (segDot base tip center / segLenSq base tip)))) ≤ r * r) := by
  simp only [lineIntersectsSphere, segLenSq, segDot]
  split
  · apply decide_eq_decide.mpr
    simp only [distSq]
    constructor <;> intro h <;> linarith
  · apply decide_eq_decide.mpr
    simp only [distSq, segPoint]
    constructor <;> intro h <;> linarith

/-- Squared segment length is non-negative. -/
theorem segLenSq_nonneg (s e : Vec3) : 0 ≤ segLenSq s e := by
  simp only [segLenSq]
  nlinarith [mul_self_nonneg (e.x - s.x), mul_self_nonneg (e.y - s.y),
    mul_self_nonneg (e.z - s.z)]

/-- The squared segment length vanishes exactly on degenerate segments. -/
theorem segLenSq_eq_zero_iff (s e : Vec3) : segLenSq s e = 0 ↔ e = s := by
  constructor
  · intro h
    simp only [segLenSq] at h
    have hx : e.x - s.x = 0 := by
      nlinarith [mul_self_nonneg (e.x - s.x), mul_self_nonneg (e.y - s.y),
        mul_self_nonneg (e.z - s.z)]
    have hy : e.y - s.y = 0 := by
      nlinarith [mul_self_nonneg (e.x - s.x), mul_self_nonneg (e.y - s.y),
        mul_self_nonneg (e.z - s.z)]
    have hz : e.z - s.z = 0 := by
      nlinarith [mul_self_nonneg (e.x - s.x), mul_self_nonneg (e.y - s.y),
        mul_self_nonneg (e.z - s.z)]
    obtain ⟨ex, ey, ez⟩ := e
    obtain ⟨sx, sy, sz⟩ := s
    simp only [Vec3.mk.injEq]
    constructor
    · linarith [hx]
    constructor
    · linarith [hy]
    · linarith [hz]
  · intro h
    subst h
    simp only [segLenSq, sub_self, mul_zero, add_zero]

/-- A degenerate segment stays at its start point for every parameter. -/
theorem segPoint_self (s : Vec3) (t : ℚ) : segPoint s s t = s := by
  simp [segPoint]

/-- Bridge between the source's squared-distance comparison and the Euclidean
distance of the specification: for `0 ≤ r`, `√q ≤ r ↔ q ≤ r²`. -/
theorem sqrt_cast_le_cast_iff (q r : ℚ) (hr : 0 ≤ r) :
    Real.sqrt (q : ℝ) ≤ (r : ℝ) ↔ q ≤ r * r := by
  rw [Real.sqrt_le_left (by exact_mod_cast hr)]
  rw [show ((r : ℝ)) ^ 2 = ((r * r : ℚ) : ℝ) by push_cast; ring]
  exact_mod_cast Iff.rfl

/-- C1: for every `r ≥ 0`, `lineIntersectsSphere base tip center r` returns
`true` iff the minimum Euclidean distance from `center` to the segment
`[base, tip]` is `≤ r` — expressed as: some point `segPoint base tip t`,
`t ∈ [0,1]`, lies within Euclidean distance `r` of the centre (the minimum
over the compact segment is attained, so the two readings agree); in
particular, for `base = tip` the test degenerates to a point test on the
Euclidean distance from `center` to that single point. -/
theorem lineIntersectsSphere_iff_min_dist_le (base tip center : Vec3) (r : ℚ)
    (hr : 0 ≤ r) :
    (lineIntersectsSphere base tip center r = true ↔
      ∃ t : ℚ, 0 ≤ t ∧ t ≤ 1 ∧
        Real.sqrt ((distSq center (segPoint base tip t) : ℚ) : ℝ) ≤ (r : ℝ)) ∧
    (base = tip →
      (lineIntersectsSphere base tip center r = true ↔
        Real.sqrt ((distSq center base : ℚ) : ℝ) ≤ (r : ℝ))) := by
  have hmain : lineIntersectsSphere base tip center r = true ↔
      ∃ t : ℚ, 0 ≤ t ∧ t ≤ 1 ∧
        Real.sqrt ((distSq center (segPoint base tip t) : ℚ) : ℝ) ≤ (r : ℝ) := by
    by_cases hL : segLenSq base tip = 0
    · have hbt : tip = base := (segLenSq_eq_zero_iff base tip).mp hL
      subst hbt
      rw [lineIntersectsSphere_eq_ite, if_pos hL]
      simp only [segPoint_self, decide_eq_true_eq]
      constructor
      · intro h
        exact ⟨0, le_refl 0, zero_le_one, (sqrt_cast_le_cast_iff _ r hr).mpr h⟩
      · rintro ⟨t, -, -, ht⟩
        exact (sqrt_cast_le_cast_iff _ r hr).mp ht
    · have hLpos : 0 < segLenSq base tip :=
        lt_of_le_of_ne (segLenSq_nonneg base tip) (Ne.symm hL)
      rw [lineIntersectsSphere_eq_ite, if_neg hL]
      simp only [decide_eq_true_eq]
      constructor
      · intro h
        refine ⟨max 0 (min 1 (segDot base tip center / segLenSq base tip)),
          le_max_left 0 _, max_le zero_le_one (min_le_left 1 _),
          (sqrt_cast_le_cast_iff _ r hr).mpr h⟩
      · rintro ⟨t, h0, h1, ht⟩
        have hle : distSq center (segPoint base tip t) ≤ r * r :=
          (sqrt_cast_le_cast_iff _ r hr).mp ht
        have hmin : distSq center
            (segPoint base tip
              (max 0 (min 1 (segDot base tip center / segLenSq base tip)))) ≤
            distSq center (segPoint base tip t) := by
          rw [distSq_segPoint, distSq_segPoint]
          exact clamped_quadratic_min (segLenSq base tip) (segDot base tip center)
            (distSq base center) hLpos t h0 h1
        linarith
  refine ⟨hmain, fun hbt => ?_⟩
  subst hbt
  rw [hmain]
  constructor
  · rintro ⟨t, -, -, ht⟩
    rwa [segPoint_self] at ht
  · intro h
    exact ⟨0, le_refl 0, zero_le_one, by rwa [segPoint_self]⟩

/-! ## Weapon and game configuration (src/server/src/config/game.config.ts) -/

/-- Embeds the `WeaponConfig` interface of game.config.ts (`cooldown` in
milliseconds; `projectileSpeed` in units per second, ranged weapons only). -/
structure WeaponConfig where
  name : String
  damage : ℚ
  range : ℚ
  cooldown : ℚ
  projectileSpeed : Option ℚ := none
  deriving DecidableEq, Repr

/-- Embeds the `WEAPONS` table of game.config.ts, keyed by the `WeaponType`
string as stored in `Player.weaponType`; an unknown key yields `none`,
matching `WEAPONS[weaponType]` being `undefined` in the source. -/
def WEAPONS : String → Option WeaponConfig
  | "SWORD" => some ⟨"Spada", 2, 1, 1000, none⟩
  | "SPEAR" => some ⟨"Lancia", 4, 5 / 2, 1000, none⟩
  | "BOW" => some ⟨"Arco", 7, 6, 1000, some (857 / 500)⟩
  | _ => none

/-- The bow archetype (`WEAPONS[WeaponType.BOW]`, projectileSpeed 1.714). -/
def bowWeapon : WeaponConfig := ⟨"Arco", 7, 6, 1000, some (857 / 500)⟩

namespace GAME_CONFIG

/-- Radius of the circular arena (`GAME_CONFIG.MAP_RADIUS`). -/
def MAP_RADIUS : ℚ := 30

/-- Initial and maximum player hp (`GAME_CONFIG.PLAYER_MAX_HP`). -/
def PLAYER_MAX_HP : ℚ := 10

end GAME_CONFIG

/-! ## Schemas (src/server/src/schemas/BattleState.ts) -/

/-- Embeds the `Player` schema (session id, display name, weapon archetype
key, position, facing angle, hp/maxHp, alive flag, cooldown stamp,
attacking flag), with the schema's defaults. -/
structure Player where
  sessionId : String := ""
  name : String := ""
  weaponType : String := ""
  position : Vec3 := ⟨0, 0, 0⟩
  rotation : ℚ := 0
  hp : ℚ := 10
  maxHp : ℚ := 10
  isAlive : Bool := true
  lastAttackTime : ℚ := 0
  isAttacking : Bool := false
  deriving DecidableEq, Repr

/-- Embeds the `Projectile` schema. -/
structure Projectile where
  id : String := ""
  ownerId : String := ""
  position : Vec3 := ⟨0, 0, 0⟩
  directionX : ℚ := 0
  directionZ : ℚ := 0
  speed : ℚ := 10
  damage : ℚ := 0
  range : ℚ := 0
  distanceTraveled : ℚ := 0
  deriving DecidableEq, Repr

/-- Embeds the `BattleState` schema; Colyseus `MapSchema` maps become
association lists in iteration (insertion) order.  `projectileCounter` is
the `BattleRoom.projectileCounter` room field that names new projectiles. -/
structure BattleState where
  players : List (String × Player) := []
  projectiles : List (String × Projectile) := []
  countdown : ℚ := 5
  gameActive : Bool := false
  gameEnded : Bool := false
  winnerId : String := ""
  winnerName : String := ""
  projectileCounter : ℕ := 0
  deriving DecidableEq, Repr

/-! ## Core services -/

/-- Embeds `CombatService.applyDamage`: `hp = max(0, hp - damage)`, and a
player at 0 hp is marked dead. -/
def applyDamage (player : Player) (damage : ℚ) : Player :=
  let player1 := { player with hp := max 0 (player.hp - damage) }
  if player1.hp ≤ 0 then { player1 with isAlive := false, hp := 0 }
  else player1

/-- Embeds `MapService.isOutOfBounds` (described in spec §4.4 and identical
to `CombatService.isPlayerOutOfBounds` in src): the source compares
`Math.sqrt(x² + z²) > MAP_RADIUS`; since `MAP_RADIUS = 30 > 0` this is
equivalent to the square comparison used here. -/
def isOutOfBounds (position : Vec3) : Bool :=
  decide (position.x ^ 2 + position.z ^ 2 > GAME_CONFIG.MAP_RADIUS ^ 2)

/-- Squared horizontal (x/z) distance.  The source's `getDistance` helpers
return `Math.sqrt` of this and only ever compare the result against
non-negative radii, so comparisons are embedded on squares. -/
def distSqH (pos1 pos2 : Vec3) : ℚ :=
  (pos1.x - pos2.x) * (pos1.x - pos2.x) + (pos1.z - pos2.z) * (pos1.z - pos2.z)

/-- Embeds `MeleeWeaponStrategy.canAttack` (and the identical cooldown test
of `HitboxWeaponStrategy.canAttack`): `now - lastAttackTime ≥ cooldown`. -/
def canAttack (weapon : WeaponConfig) (attacker : Player) (currentTime : ℚ) : Bool :=
  decide (currentTime - attacker.lastAttackTime ≥ weapon.cooldown)

/-- The per-target test of the melee scan in `CombatService.handleMeleeAttack`
/ `MeleeWeaponStrategy.handleAttack`: another player, alive, horizontal
distance within `weapon.range` (source: `Math.sqrt(dx²+dz²) ≤ range`,
squared here; every configured range is positive), and a strictly positive
dot product of the facing direction `(dirX, dirZ) = (sin rot, cos rot)`
with the attacker-to-target vector. -/
def meleeTargetHit (weapon : WeaponConfig) (attacker : Player)
    (dirX dirZ : ℚ) (targetId : String) (target : Player) : Bool :=
  decide (targetId ≠ attacker.sessionId) && target.isAlive &&
    decide (distSqH attacker.position target.position ≤ weapon.range * weapon.range) &&
    decide (0 < dirX * (target.position.x - attacker.position.x) +
      dirZ * (target.position.z - attacker.position.z))

/-- Embeds `CombatService.handleMeleeAttack` (identical logic in
`MeleeWeaponStrategy.handleAttack`): unknown archetype → no-op returning no
hits; unelapsed cooldown → no-op; otherwise the cooldown stamp and
attacking flag are set and every qualifying target is damaged in the same
invocation.  Since sine and cosine of a rational angle are irrational, the
facing pair `(Math.sin rotation, Math.cos rotation)` computed inside the
source is taken as the arguments `dirX`, `dirZ`.  Returns
(updated attacker, updated player map, hit session ids). -/
def handleMeleeAttack (attacker : Player) (dirX dirZ : ℚ)
    (allPlayers : List (String × Player)) (currentTime : ℚ) :
    Player × List (String × Player) × List String :=
  match WEAPONS attacker.weaponType with
  | none => (attacker, allPlayers, [])
  | some weapon =>
    if currentTime - attacker.lastAttackTime < weapon.cooldown then
      (attacker, allPlayers, [])
    else
      let attacker' := { attacker with lastAttackTime := currentTime, isAttacking := true }
      let hitPlayers := (allPlayers.filter fun p =>
        meleeTargetHit weapon attacker dirX dirZ p.1 p.2).map Prod.fst
      let allPlayers' := allPlayers.map fun p =>
        if meleeTargetHit weapon attacker dirX dirZ p.1 p.2 then
          (p.1, applyDamage p.2 weapon.damage)
        else p
      (attacker', allPlayers', hitPlayers)

/-! ## Projectile simulation (src/server/src/services/projectile.service.ts) -/

/-- Embeds `ProjectileService.createProjectile`: rejected while the bow
cooldown is running; otherwise stamps the shooter, spawns the arrow half a
unit in front of the shooter at height 1, copies damage/range from the bow
archetype and takes `projectileSpeed ?? 12` as speed.  The facing pair
`(Math.sin rotation, Math.cos rotation)` is the arguments `dirX`, `dirZ`
(see `handleMeleeAttack`).  Returns the stamped shooter and the new
projectile, or `none` when on cooldown. -/
def createProjectile (shooter : Player) (dirX dirZ : ℚ) (projectileId : String)
    (currentTime : ℚ) : Option (Player × Projectile) :=
  if currentTime - shooter.lastAttackTime < bowWeapon.cooldown then none
  else
    let shooter' := { shooter with lastAttackTime := currentTime, isAttacking := true }
    some (shooter',
      { id := projectileId
        ownerId := shooter.sessionId
        position := ⟨shooter.position.x + dirX * (1 / 2), 1, shooter.position.z + dirZ * (1 / 2)⟩
        directionX := dirX
        directionZ := dirZ
        damage := bowWeapon.damage
        speed := bowWeapon.projectileSpeed.getD 12
        range := bowWeapon.range
        distanceTraveled := 0 })

/-- Embeds `ProjectileService.updateProjectile`: advance the position by
`speed · Δt` along the horizontal direction, accumulate `distanceTraveled`,
and flag for removal once `distanceTraveled ≥ range` or the position has
left the arena.  Returns the advanced projectile and the removal flag. -/
def updateProjectile (projectile : Projectile) (deltaTime : ℚ) : Projectile × Bool :=
  let distance := projectile.speed * deltaTime
  let newPos : Vec3 :=
    ⟨projectile.position.x + projectile.directionX * distance,
      projectile.position.y,
      projectile.position.z + projectile.directionZ * distance⟩
  let projectile' := { projectile with
    position := newPos
    distanceTraveled := projectile.distanceTraveled + distance }
  if projectile'.distanceTraveled ≥ projectile'.range then (projectile', true)
  else if isOutOfBounds projectile'.position then (projectile', true)
  else (projectile', false)

/-- Embeds `ProjectileService.checkProjectileCollision`: scan the players in
map order; the first player that is not the owner, is alive, and is within
the fixed hit radius 0.5 (source: `Math.sqrt(dx²+dz²) ≤ 0.5`, squared
here) absorbs the damage and stops the scan.  Returns the hit session id
(if any) and the updated player map. -/
def checkProjectileCollision (projectile : Projectile) :
    List (String × Player) → Option String × List (String × Player)
  | [] => (none, [])
  | (playerId, player) :: rest =>
    if playerId = projectile.ownerId ∨ player.isAlive = false then
      let (hit, rest') := checkProjectileCollision projectile rest
      (hit, (playerId, player) :: rest')
    else if distSqH projectile.position player.position ≤ (1 / 2) * (1 / 2) then
      (some playerId, (playerId, applyDamage player projectile.damage) :: rest)
    else
      let (hit, rest') := checkProjectileCollision projectile rest
      (hit, (playerId, player) :: rest')

/-- Embeds `ProjectileService.updateAllProjectiles`: every projectile is
advanced; projectiles flagged by `updateProjectile` skip collision and are
queued for removal; otherwise a collision damages the hit player and also
queues the projectile.  Returns (advanced projectile map, updated player
map, ids to remove, hits as (projectileId, playerId, damage)). -/
def updateAllProjectiles :
    List (String × Projectile) → List (String × Player) → ℚ →
      List (String × Projectile) × List (String × Player) × List String ×
        List (String × String × ℚ)
  | [], players, _ => ([], players, [], [])
  | (projectileId, projectile) :: rest, players, deltaTime =>
    let (projectile', shouldRemove) := updateProjectile projectile deltaTime
    if shouldRemove then
      let (restProj, players', toRemove, hits) := updateAllProjectiles rest players deltaTime
      ((projectileId, projectile') :: restProj, players', projectileId :: toRemove, hits)
    else
      match checkProjectileCollision projectile' players with
      | (some hitId, players1) =>
        let (restProj, players', toRemove, hits) := updateAllProjectiles rest players1 deltaTime
        ((projectileId, projectile') :: restProj, players', projectileId :: toRemove,
          (projectileId, hitId, projectile'.damage) :: hits)
      | (none, players1) =>
        let (restProj, players', toRemove, hits) := updateAllProjectiles rest players1 deltaTime
        ((projectileId, projectile') :: restProj, players', toRemove, hits)

/-- Multi-tick run of one projectile: apply `updateProjectile` for each tick
duration in turn, stopping with `none` as soon as the projectile is flagged
for removal (collision with a player, handled elsewhere, can only remove it
earlier).  Mirrors the per-tick treatment in `updateAllProjectiles`. -/
def runProjectile : Projectile → List ℚ → Option Projectile
  | p, [] => some p
  | p, deltaTime :: rest =>
    let (p', removed) := updateProjectile p deltaTime
    if removed then none else runProjectile p' rest

/-! ## Arena boundary sweep and victory check (src/server/src/rooms/BattleRoom.ts) -/

/-- Body of the out-of-bounds sweep in `BattleRoom.update` for one player:
dead players are skipped; an alive player outside the arena is eliminated
(`hp = 0`, `isAlive = false`, reason out_of_bounds); afterwards the
transient `isAttacking` flag is cleared. -/
def boundaryCheck (player : Player) : Player :=
  if player.isAlive = false then player
  else
    let player1 :=
      if isOutOfBounds player.position then { player with isAlive := false, hp := 0 }
      else player
    if player1.isAttacking then { player1 with isAttacking := false } else player1

/-- The out-of-bounds sweep over the whole player map. -/
def boundarySweep (players : List (String × Player)) : List (String × Player) :=
  players.map fun p => (p.1, boundaryCheck p.2)

/-- Embeds `PlayerService.countAlivePlayers`. -/
def countAlivePlayers (players : List (String × Player)) : ℕ :=
  (players.filter fun p => p.2.isAlive).length

/-- Embeds `PlayerService.findWinner`: the first alive player in map order. -/
def findWinner (players : List (String × Player)) : Option Player :=
  (players.find? fun p => p.2.isAlive).map Prod.snd

/-- Embeds `BattleRoom.checkVictoryCondition`: a no-op unless the game is
active and not yet ended; with at most one alive player it freezes the
state (`gameEnded := true`, `gameActive := false`), records the winner (if
any) and announces the outcome.  The second component models the
`gameEnded` broadcast payload `(winnerId, winnerName)`, where no winner is
announced as `("", "Nessuno")`. -/
def checkVictoryCondition (s : BattleState) : BattleState × Option (String × String) :=
  if s.gameActive = false ∨ s.gameEnded = true then (s, none)
  else if countAlivePlayers s.players ≤ 1 then
    let s1 := { s with gameEnded := true, gameActive := false }
    match findWinner s.players with
    | some winner =>
      ({ s1 with winnerId := winner.sessionId, winnerName := winner.name },
        some (winner.sessionId, winner.name))
    | none => (s1, some ("", "Nessuno"))
  else (s, none)

/-- Embeds `BattleRoom.onLeave`'s effect on the leaving player: the player
record is kept (the corpse stays visible) but marked dead. -/
def onLeavePlayer (player : Player) : Player :=
  { player with isAlive := false, hp := 0 }

/-- Embeds `BattleRoom.onJoin`'s construction of a fresh player record. -/
def joinPlayer (sessionId name weaponType : String) (spawn : Vec3) (rotation : ℚ) : Player :=
  { sessionId := sessionId
    name := name
    weaponType := weaponType
    hp := GAME_CONFIG.PLAYER_MAX_HP
    maxHp := GAME_CONFIG.PLAYER_MAX_HP
    isAlive := true
    position := ⟨spawn.x, 0, spawn.z⟩
    rotation := rotation }

/-! ## Room message handlers and tick (src/server/src/rooms/BattleRoom.ts) -/

/-- The `playerMove` message payload. -/
structure PlayerInput where
  x : ℚ
  z : ℚ
  rotation : ℚ
  deriving DecidableEq, Repr

/-- Map lookup `this.state.players.get(sessionId)` on the association-list
embedding. -/
def lookupPlayer (players : List (String × Player)) (sessionId : String) : Option Player :=
  (players.find? fun p => p.1 = sessionId).map Prod.snd

/-- Overwrite the entry with the given key (the key is always present when
the room handlers call this, mirroring in-place mutation of the schema). -/
def setPlayer (players : List (String × Player)) (sessionId : String) (player : Player) :
    List (String × Player) :=
  players.map fun q => if q.1 = sessionId then (sessionId, player) else q

/-- Embeds `BattleRoom.handlePlayerMove`: the intent is silently dropped when
the sender is absent, dead, or the match is not active; otherwise position
x/z and rotation are written as sent. -/
def handlePlayerMove (s : BattleState) (sessionId : String) (input : PlayerInput) :
    BattleState :=
  match lookupPlayer s.players sessionId with
  | none => s
  | some player =>
    if player.isAlive = false ∨ s.gameActive = false then s
    else
      let player' := { player with
        position := (⟨input.x, player.position.y, input.z⟩ : Vec3)
        rotation := input.rotation }
      { s with players := setPlayer s.players sessionId player' }

/-- Embeds `BattleRoom.handlePlayerAttack`: the intent is silently dropped
when the sender is absent, dead, or the match is not active.  A bow fires
through `createProjectile` (the projectile counter increments even when the
cooldown rejects the shot, as in `projectile_${this.projectileCounter++}`);
any other archetype resolves through `handleMeleeAttack`.  The facing pair
`(Math.sin rotation, Math.cos rotation)` is the arguments `dirX`, `dirZ`. -/
def handlePlayerAttack (s : BattleState) (sessionId : String) (dirX dirZ : ℚ)
    (currentTime : ℚ) : BattleState :=
  match lookupPlayer s.players sessionId with
  | none => s
  | some player =>
    if player.isAlive = false ∨ s.gameActive = false then s
    else if player.weaponType = "BOW" then
      let projectileId := "projectile_" ++ toString s.projectileCounter
      let s1 := { s with projectileCounter := s.projectileCounter + 1 }
      match createProjectile player dirX dirZ projectileId currentTime with
      | none => s1
      | some (shooter', projectile) =>
        { s1 with
          players := setPlayer s1.players sessionId shooter'
          projectiles := s1.projectiles ++ [(projectileId, projectile)] }
    else
      let res := handleMeleeAttack player dirX dirZ s.players currentTime
      { s with players := setPlayer res.2.1 sessionId res.1 }

/-- Embeds the state-mutating steps of `BattleRoom.update` in tick order: an
early return outside the active phase; projectile advance/collision;
removal of flagged projectiles; the out-of-bounds sweep (which also clears
the transient attacking flag); and the victory check.  Broadcast decisions
and lag-compensation snapshots carry no authoritative state and are not
modelled. -/
def updateTick (s : BattleState) (deltaTime : ℚ) : BattleState :=
  if s.gameActive = false ∨ s.gameEnded = true then s
  else
    let (projectiles1, players1, toRemove, _hits) :=
      updateAllProjectiles s.projectiles s.players (deltaTime / 1000)
    let projectiles2 := projectiles1.filter fun p => decide (p.1 ∉ toRemove)
    let players2 := boundarySweep players1
    (checkVictoryCondition { s with projectiles := projectiles2, players := players2 }).1

/-! ## Hitbox swings (src/server/src/weapons/HitboxWeaponStrategy.ts) -/

/-- Radius of the player hitbox sphere
(`CombatService.PLAYER_HITBOX_RADIUS`). -/
def PLAYER_HITBOX_RADIUS : ℚ := 1

/-- Embeds `CombatService.handleWeaponHitboxAttack`: unknown archetype → no
hits; with `checkCooldown` (first frame of a room-level swing) the cooldown
is verified and stamped; each other alive player whose hitbox sphere
(centre at half character height, y = 0.9) the weapon segment intersects is
reported.  Damage is applied by the caller after duplicate filtering.
Returns (possibly stamped attacker, hit session ids). -/
def handleWeaponHitboxAttack (attacker : Player) (weaponTip weaponBase : Vec3)
    (allPlayers : List (String × Player)) (checkCooldown : Bool) (currentTime : ℚ) :
    Player × List String :=
  match WEAPONS attacker.weaponType with
  | none => (attacker, [])
  | some weapon =>
    if checkCooldown = true ∧ currentTime - attacker.lastAttackTime < weapon.cooldown then
      (attacker, [])
    else
      let attacker' :=
        if checkCooldown then
          { attacker with lastAttackTime := currentTime, isAttacking := true }
        else attacker
      let hits := (allPlayers.filter fun p =>
        decide (p.1 ≠ attacker.sessionId) && p.2.isAlive &&
          lineIntersectsSphere weaponBase weaponTip
            ⟨p.2.position.x, 9 / 10, p.2.position.z⟩ PLAYER_HITBOX_RADIUS).map Prod.fst
      (attacker', hits)

/-- Per-attacker swing-tracking state of `HitboxWeaponStrategy` (equivalently
of `BattleRoom` in the direct variant): `activeSwing` is membership in
`activeSwings`, `swingHitPlayers` the per-swing set of already-hit ids. -/
structure HitboxSwingState where
  activeSwing : Bool := false
  swingHitPlayers : List String := []
  deriving DecidableEq, Repr

/-- The duplicate filter of `handleHitboxAttack` / `handleWeaponSwing`: walk
the detected hits, skipping ids already in the per-swing set and adding new
ones to it as they are credited.  Returns (grown set, newly credited ids in
order). -/
def dedupHits : List String → List String → List String × List String
  | alreadyHit, [] => (alreadyHit, [])
  | alreadyHit, targetId :: rest =>
    if targetId ∈ alreadyHit then dedupHits alreadyHit rest
    else
      let (alreadyHit', newHits) := dedupHits (targetId :: alreadyHit) rest
      (alreadyHit', targetId :: newHits)

/-- Embeds `HitboxWeaponStrategy.handleHitboxAttack` for one swing sample
(the identical duplicate-filtering also lives in
`BattleRoom.handleWeaponSwing` in the direct variant): the first sample of
a swing checks and stamps the cooldown and resets the per-swing hit set;
every sample then runs segment-sphere detection and credits only targets
not already hit in this swing.  `weapon` is the strategy's configured
archetype.  Returns (state', attacker', newly credited ids). -/
def handleHitboxAttack (weapon : WeaponConfig) (st : HitboxSwingState)
    (attacker : Player) (weaponTip weaponBase : Vec3)
    (allPlayers : List (String × Player)) (currentTime : ℚ) :
    HitboxSwingState × Player × List String :=
  if st.activeSwing = false then
    if canAttack weapon attacker currentTime = false then (st, attacker, [])
    else
      let attacker' := { attacker with lastAttackTime := currentTime, isAttacking := true }
      let hitPlayers :=
        (handleWeaponHitboxAttack attacker' weaponTip weaponBase allPlayers false currentTime).2
      (⟨true, (dedupHits [] hitPlayers).1⟩, attacker', (dedupHits [] hitPlayers).2)
  else
    let hitPlayers :=
      (handleWeaponHitboxAttack attacker weaponTip weaponBase allPlayers false currentTime).2
    (⟨true, (dedupHits st.swingHitPlayers hitPlayers).1⟩, attacker,
      (dedupHits st.swingHitPlayers hitPlayers).2)

/-- One streamed hitbox sample of a swing (weapon tip/base world positions,
the player map at that instant, the sample time). -/
structure SwingSample where
  weaponTip : Vec3
  weaponBase : Vec3
  allPlayers : List (String × Player)
  currentTime : ℚ

/-- Processes the samples of one continuous swing in order, concatenating
the ids credited with a hit (those the caller damages and broadcasts). -/
def runSwing (weapon : WeaponConfig) :
    HitboxSwingState → Player → List SwingSample → List String
  | _, _, [] => []
  | st, attacker, sample :: rest =>
    let res := handleHitboxAttack weapon st attacker
      sample.weaponTip sample.weaponBase sample.allPlayers sample.currentTime
    res.2.2 ++ runSwing weapon res.1 res.2.1 rest

/-! ## Client reconciliation (src/client/src/app/services/input.service.ts) -/

/-- Embeds `InputService.reconcilePosition`: the source compares the
Euclidean divergence `currentPosition.distanceTo(serverPosition)` against
the thresholds 0.1 and 0.5 (squared here, equivalently); below 0.1 the
prediction is accepted, above 0.5 the local position lerps 20% toward the
authoritative one (`THREE.Vector3.lerp` with factor 0.2), and in between
nothing happens.  Returns the corrected local position. -/
def reconcilePosition (currentPosition serverPosition : Vec3) : Vec3 :=
  if distSq currentPosition serverPosition < (1 / 10) * (1 / 10) then currentPosition
  else if distSq currentPosition serverPosition > (1 / 2) * (1 / 2) then
    ⟨currentPosition.x + (serverPosition.x - currentPosition.x) * (1 / 5),
      currentPosition.y + (serverPosition.y - currentPosition.y) * (1 / 5),
      currentPosition.z + (serverPosition.z - currentPosition.z) * (1 / 5)⟩
  else currentPosition

/-! ## Theorems -/

/-- PlayerState invariant of spec §3: `0 ≤ hp ≤ maxHp` and `alive ⇔ hp > 0`. -/
def playerStateInvariant (p : Player) : Prop :=
  0 ≤ p.hp ∧ p.hp ≤ p.maxHp ∧ (p.isAlive = true ↔ 0 < p.hp)

/-- C2: every operation that mutates hp or the alive flag — damage
application (with non-negative damage, as all configured damages are), the
out-of-bounds elimination of the tick sweep, disconnection handling, and
the fresh record built on join — preserves `0 ≤ hp ≤ maxHp` and
`alive ⇔ hp > 0`; `applyDamage` re-establishes the alive flag in the same
step, so no violation outlives the damage-applying tick. -/
theorem hp_alive_invariant_preserved :
    (∀ (p : Player) (damage : ℚ), playerStateInvariant p → 0 ≤ damage →
      playerStateInvariant (applyDamage p damage)) ∧
    (∀ p : Player, playerStateInvariant p → playerStateInvariant (boundaryCheck p)) ∧
    (∀ p : Player, playerStateInvariant p → playerStateInvariant (onLeavePlayer p)) ∧
    (∀ (sessionId nm weaponType : String) (spawn : Vec3) (rotation : ℚ),
      playerStateInvariant (joinPlayer sessionId nm weaponType spawn rotation)) := by
  refine ⟨?_, ?_, ?_, ?_⟩
  · rintro p d ⟨h0, hmax, halive⟩ hd
    simp only [applyDamage, playerStateInvariant]
    split
    · dsimp only
      exact ⟨le_refl 0, by linarith, by simp⟩
    · rename_i hgt
      dsimp only at hgt ⊢
      have hpos : 0 < max 0 (p.hp - d) := not_le.mp hgt
      have hal : p.isAlive = true := by
        cases hpa : p.isAlive with
        | true => rfl
        | false =>
          exfalso
          have hnpos : ¬ 0 < p.hp := fun hp2 => by
            have := halive.mpr hp2
            rw [hpa] at this
            exact Bool.false_ne_true this
          have hz : p.hp = 0 := le_antisymm (not_lt.mp hnpos) h0
          have hm0 : max 0 (p.hp - d) = 0 := max_eq_left (by linarith)
          rw [hm0] at hpos
          exact lt_irrefl 0 hpos
      exact ⟨le_max_left 0 _, max_le (by linarith) (by linarith),
        by rw [hal]; exact ⟨fun _ => hpos, fun _ => rfl⟩⟩
  · rintro p ⟨h0, hmax, halive⟩
    simp only [boundaryCheck, playerStateInvariant]
    split
    · exact ⟨h0, hmax, halive⟩
    · by_cases hoob : isOutOfBounds p.position = true
      · rw [if_pos hoob]
        split
        · dsimp only
          exact ⟨le_refl 0, by linarith, by simp⟩
        · dsimp only
          exact ⟨le_refl 0, by linarith, by simp⟩
      · rw [if_neg hoob]
        split
        · dsimp only
          exact ⟨h0, hmax, halive⟩
        · exact ⟨h0, hmax, halive⟩
  · rintro p ⟨h0, hmax, halive⟩
    refine ⟨?_, ?_, ?_⟩ <;> simp only [onLeavePlayer]
    · exact le_refl 0
    · exact by linarith
    · simp
  · intro sessionId nm weaponType spawn rotation
    refine ⟨?_, ?_, ?_⟩ <;> norm_num [joinPlayer, GAME_CONFIG.PLAYER_MAX_HP]

/-- Witness for C2 at a concrete player and damage value. -/
theorem hp_alive_invariant_preserved_witness :
    playerStateInvariant ({ } : Player) ∧ (0 : ℚ) ≤ 2 ∧
      playerStateInvariant (applyDamage ({ } : Player) 2) ∧
      playerStateInvariant (boundaryCheck ({ } : Player)) ∧
      playerStateInvariant (onLeavePlayer ({ } : Player)) ∧
      playerStateInvariant (joinPlayer "s" "n" "SWORD" ⟨0, 0, 0⟩ 0) := by
  have hinv : playerStateInvariant ({ } : Player) := by
    refine ⟨by norm_num, by norm_num, by norm_num⟩
  exact ⟨hinv, by norm_num,
    hp_alive_invariant_preserved.1 ({ } : Player) 2 hinv (by norm_num),
    hp_alive_invariant_preserved.2.1 ({ } : Player) hinv,
    hp_alive_invariant_preserved.2.2.1 ({ } : Player) hinv,
    hp_alive_invariant_preserved.2.2.2 "s" "n" "SWORD" ⟨0, 0, 0⟩ 0⟩

/-- C4: a projectile is flagged for removal exactly when its accumulated
`distanceTraveled` reaches its configured range or its position leaves the
circular arena, whichever comes first (single-step characterisation); one
tick never decreases `distanceTraveled` (for non-negative speed and tick
duration), hence it is monotone across ticks; and over any multi-tick run
a projectile that has not been flagged has `distanceTraveled` still below
its range and is still inside the arena. -/
theorem projectile_range_and_arena_bound :
    (∀ (p : Projectile) (deltaTime : ℚ),
      ((updateProjectile p deltaTime).2 = true ↔
        (updateProjectile p deltaTime).1.range ≤
            (updateProjectile p deltaTime).1.distanceTraveled ∨
          isOutOfBounds (updateProjectile p deltaTime).1.position = true)) ∧
    (∀ (p : Projectile) (deltaTime : ℚ), 0 ≤ p.speed → 0 ≤ deltaTime →
      p.distanceTraveled ≤ (updateProjectile p deltaTime).1.distanceTraveled) ∧
    (∀ (p q : Projectile) (ticks : List ℚ),
      runProjectile p ticks = some q →
      p.distanceTraveled < p.range → isOutOfBounds p.position = false →
      q.distanceTraveled < q.range ∧ isOutOfBounds q.position = false) ∧
    (∀ (p q : Projectile) (ticks : List ℚ), 0 ≤ p.speed →
      (∀ dt ∈ ticks, 0 ≤ dt) → runProjectile p ticks = some q →
      p.distanceTraveled ≤ q.distanceTraveled) := by
  have h1 : ∀ (p : Projectile) (dt : ℚ),
      ((updateProjectile p dt).2 = true ↔
        (updateProjectile p dt).1.range ≤ (updateProjectile p dt).1.distanceTraveled ∨
          isOutOfBounds (updateProjectile p dt).1.position = true) := by
    intro p dt
    simp only [updateProjectile]
    split
    · rename_i hge
      dsimp only at hge ⊢
      exact ⟨fun _ => Or.inl hge, fun _ => rfl⟩
    · split
      · rename_i hge hoob
        dsimp only at hoob ⊢
        exact ⟨fun _ => Or.inr hoob, fun _ => rfl⟩
      · rename_i hge hoob
        dsimp only at hge hoob ⊢
        constructor
        · intro h
          exact absurd h (by simp)
        · rintro (h | h)
          · exact absurd h hge
          · exact absurd h hoob
  have hspeed : ∀ (p : Projectile) (dt : ℚ), (updateProjectile p dt).1.speed = p.speed := by
    intro p dt
    simp only [updateProjectile]
    split
    · rfl
    · split <;> rfl
  have h2 : ∀ (p : Projectile) (dt : ℚ), 0 ≤ p.speed → 0 ≤ dt →
      p.distanceTraveled ≤ (updateProjectile p dt).1.distanceTraveled := by
    intro p dt hsp hdt
    have hmul : 0 ≤ p.speed * dt := mul_nonneg hsp hdt
    simp only [updateProjectile]
    split
    · dsimp only
      linarith
    · split
      · dsimp only
        linarith
      · dsimp only
        linarith
  have hstep : ∀ (p : Projectile) (dt : ℚ), (updateProjectile p dt).2 = false →
      (updateProjectile p dt).1.distanceTraveled < (updateProjectile p dt).1.range ∧
        isOutOfBounds (updateProjectile p dt).1.position = false := by
    intro p dt hfalse
    have hnot : ¬((updateProjectile p dt).1.range ≤
        (updateProjectile p dt).1.distanceTraveled ∨
        isOutOfBounds (updateProjectile p dt).1.position = true) := by
      intro hor
      rw [(h1 p dt).mpr hor] at hfalse
      exact Bool.true_eq_false.mp hfalse
    push_neg at hnot
    exact ⟨hnot.1, by simpa using hnot.2⟩
  refine ⟨h1, h2, ?_, ?_⟩
  · intro p q ticks
    induction ticks generalizing p with
    | nil =>
      intro hrun hrange hoob
      simp only [runProjectile, Option.some.injEq] at hrun
      subst hrun
      exact ⟨hrange, hoob⟩
    | cons dt rest ih =>
      intro hrun hrange hoob
      simp only [runProjectile] at hrun
      rcases hup : updateProjectile p dt with ⟨p', removed⟩
      rw [hup] at hrun
      cases removed with
      | true => simp at hrun
      | false =>
        simp only [if_neg (by simp : ¬(false = true))] at hrun
        have hs := hstep p dt (by rw [hup])
        rw [hup] at hs
        exact ih p' hrun hs.1 hs.2
  · intro p q ticks
    induction ticks generalizing p with
    | nil =>
      intro hsp hticks hrun
      simp only [runProjectile, Option.some.injEq] at hrun
      subst hrun
      exact le_refl _
    | cons dt rest ih =>
      intro hsp hticks hrun
      simp only [runProjectile] at hrun
      rcases hup : updateProjectile p dt with ⟨p', removed⟩
      rw [hup] at hrun
      cases removed with
      | true => simp at hrun
      | false =>
        simp only [if_neg (by simp : ¬(false = true))] at hrun
        have hd1 : p.distanceTraveled ≤ p'.distanceTraveled := by
          have := h2 p dt hsp (hticks dt (List.mem_cons_self dt rest))
          rwa [hup] at this
        have hsp' : 0 ≤ p'.speed := by
          have := hspeed p dt
          rw [hup] at this
          rw [this]
          exact hsp
        have hd2 : p'.distanceTraveled ≤ q.distanceTraveled :=
          ih p' hsp' (fun t ht => hticks t (List.mem_cons_of_mem dt ht)) hrun
        linarith

/-- Concrete projectile used by the C4 witness: speed 1, range 6,
direction (1,0), fresh. -/
def boltStart : Projectile :=
  { speed := 1, range := 6, directionX := 1 }

/-- The projectile of `boltStart` after two one-second ticks. -/
def boltLater : Projectile :=
  { speed := 1, range := 6, directionX := 1, position := ⟨2, 0, 0⟩,
    distanceTraveled := 2 }

/-- Witness for C4 at a concrete projectile over the tick list `[1, 1]`. -/
theorem projectile_range_and_arena_bound_witness :
    boltStart.distanceTraveled ≤ (updateProjectile boltStart 1).1.distanceTraveled ∧
      (boltLater.distanceTraveled < boltLater.range ∧
        isOutOfBounds boltLater.position = false) := by
  constructor
  · exact projectile_range_and_arena_bound.2.1 boltStart 1
      (by norm_num [boltStart]) (by norm_num)
  · exact projectile_range_and_arena_bound.2.2.1 boltStart boltLater [1, 1]
      (by norm_num [runProjectile, updateProjectile, isOutOfBounds, boltStart, boltLater,
        GAME_CONFIG.MAP_RADIUS, Projectile.mk.injEq, Vec3.mk.injEq])
      (by norm_num [boltStart])
      (by norm_num [boltStart, isOutOfBounds, GAME_CONFIG.MAP_RADIUS])

/-- C9: reconciling against the authoritative position ignores a divergence
of 0.05 units (the local position is returned unchanged), while a
divergence of 0.8 units yields a blended correction: the local position
strictly approaches the server position but is not set equal to it in a
single call. -/
theorem reconcile_small_ignored_large_blended (cur server : Vec3) :
    (distSq cur server = (1 / 20) * (1 / 20) → reconcilePosition cur server = cur) ∧
    (distSq cur server = (4 / 5) * (4 / 5) →
      reconcilePosition cur server ≠ cur ∧
        reconcilePosition cur server ≠ server ∧
        distSq (reconcilePosition cur server) server < distSq cur server) := by
  obtain ⟨cx, cy, cz⟩ := cur
  obtain ⟨sx, sy, sz⟩ := server
  constructor
  · intro h
    rw [reconcilePosition, if_pos (by rw [h]; norm_num)]
  · intro h
    have hb : reconcilePosition ⟨cx, cy, cz⟩ ⟨sx, sy, sz⟩ =
        ⟨cx + (sx - cx) * (1 / 5), cy + (sy - cy) * (1 / 5), cz + (sz - cz) * (1 / 5)⟩ := by
      rw [reconcilePosition, if_neg (by rw [h]; norm_num), if_pos (by rw [h]; norm_num)]
    simp only [distSq] at h
    refine ⟨?_, ?_, ?_⟩
    · rw [hb]
      intro heq
      rw [Vec3.mk.injEq] at heq
      obtain ⟨h1, h2, h3⟩ := heq
      have e1 : sx = cx := by linarith
      have e2 : sy = cy := by linarith
      have e3 : sz = cz := by linarith
      subst e1; subst e2; subst e3
      norm_num at h
    · rw [hb]
      intro heq
      rw [Vec3.mk.injEq] at heq
      obtain ⟨h1, h2, h3⟩ := heq
      have e1 : sx = cx := by linarith
      have e2 : sy = cy := by linarith
      have e3 : sz = cz := by linarith
      subst e1; subst e2; subst e3
      norm_num at h
    · rw [hb]
      simp only [distSq]
      have hfrac : (sx - (cx + (sx - cx) * (1 / 5))) ^ 2 +
          (sy - (cy + (sy - cy) * (1 / 5))) ^ 2 +
          (sz - (cz + (sz - cz) * (1 / 5))) ^ 2 =
          (16 / 25) * ((sx - cx) ^ 2 + (sy - cy) ^ 2 + (sz - cz) ^ 2) := by
        ring
      rw [hfrac, h]
      norm_num

/-- Witness for C9 at concrete positions with divergences 0.05 and 0.8. -/
theorem reconcile_small_ignored_large_blended_witness :
    reconcilePosition ⟨0, 0, 0⟩ ⟨1 / 20, 0, 0⟩ = ⟨0, 0, 0⟩ ∧
      (reconcilePosition ⟨0, 0, 0⟩ ⟨4 / 5, 0, 0⟩ ≠ ⟨0, 0, 0⟩ ∧
        reconcilePosition ⟨0, 0, 0⟩ ⟨4 / 5, 0, 0⟩ ≠ ⟨4 / 5, 0, 0⟩ ∧
        distSq (reconcilePosition ⟨0, 0, 0⟩ ⟨4 / 5, 0, 0⟩) ⟨4 / 5, 0, 0⟩ <
          distSq (⟨0, 0, 0⟩ : Vec3) ⟨4 / 5, 0, 0⟩) :=
  ⟨(reconcile_small_ignored_large_blended ⟨0, 0, 0⟩ ⟨1 / 20, 0, 0⟩).1
      (by norm_num [distSq]),
    (reconcile_small_ignored_large_blended ⟨0, 0, 0⟩ ⟨4 / 5, 0, 0⟩).2
      (by norm_num [distSq])⟩

/-- C10: `reconcilePosition` has a dead zone — every divergence whose square
lies in `[0.1², 0.5²]` leaves the local position exactly unchanged even
though it exceeds the 0.1 acceptance tolerance; any correction at all
implies the divergence exceeds 0.5; and when it does, the call moves the
position exactly 20% of the remaining way toward the server position. -/
theorem reconcile_dead_zone_and_lerp (cur server : Vec3) :
    ((1 / 10) * (1 / 10) ≤ distSq cur server → distSq cur server ≤ (1 / 2) * (1 / 2) →
      reconcilePosition cur server = cur) ∧
    (reconcilePosition cur server ≠ cur → (1 / 2) * (1 / 2) < distSq cur server) ∧
    ((1 / 2) * (1 / 2) < distSq cur server →
      reconcilePosition cur server =
        ⟨cur.x + (server.x - cur.x) * (1 / 5), cur.y + (server.y - cur.y) * (1 / 5),
          cur.z + (server.z - cur.z) * (1 / 5)⟩) := by
  refine ⟨?_, ?_, ?_⟩
  · intro hlo hhi
    rw [reconcilePosition]
    split
    · rfl
    · rw [if_neg (by linarith)]
  · intro hne
    by_contra hle
    push_neg at hle
    rw [reconcilePosition] at hne
    split at hne
    · exact hne rfl
    · rw [if_neg (by linarith)] at hne
      exact hne rfl
  · intro hgt
    rw [reconcilePosition, if_neg (by linarith), if_pos hgt]

/-- Witness for C10: a divergence of 0.3 (inside the dead zone) and one of
1.0 (corrected by a 20% lerp), at concrete positions. -/
theorem reconcile_dead_zone_and_lerp_witness :
    reconcilePosition ⟨0, 0, 0⟩ ⟨3 / 10, 0, 0⟩ = ⟨0, 0, 0⟩ ∧
      reconcilePosition ⟨0, 0, 0⟩ ⟨1, 0, 0⟩ =
        ⟨0 + (1 - 0) * (1 / 5), 0 + (0 - 0) * (1 / 5), 0 + (0 - 0) * (1 / 5)⟩ :=
  ⟨(reconcile_dead_zone_and_lerp ⟨0, 0, 0⟩ ⟨3 / 10, 0, 0⟩).1
      (by norm_num [distSq]) (by norm_num [distSq]),
    (reconcile_dead_zone_and_lerp ⟨0, 0, 0⟩ ⟨1, 0, 0⟩).2.2 (by norm_num [distSq])⟩

/-- Rejection shape of `handleMeleeAttack` while the cooldown is running. -/
theorem handleMeleeAttack_reject (attacker : Player) (dirX dirZ : ℚ)
    (allPlayers : List (String × Player)) (currentTime : ℚ) (weapon : WeaponConfig)
    (hw : WEAPONS attacker.weaponType = some weapon)
    (hc : currentTime - attacker.lastAttackTime < weapon.cooldown) :
    handleMeleeAttack attacker dirX dirZ allPlayers currentTime =
      (attacker, allPlayers, []) := by
  simp only [handleMeleeAttack, hw]
  rw [if_pos hc]

/-- On success `handleMeleeAttack` stamps the cooldown timestamp and the
attacking flag on the attacker. -/
theorem handleMeleeAttack_success_fst (attacker : Player) (dirX dirZ : ℚ)
    (allPlayers : List (String × Player)) (currentTime : ℚ) (weapon : WeaponConfig)
    (hw : WEAPONS attacker.weaponType = some weapon)
    (hc : weapon.cooldown ≤ currentTime - attacker.lastAttackTime) :
    (handleMeleeAttack attacker dirX dirZ allPlayers currentTime).1 =
      { attacker with lastAttackTime := currentTime, isAttacking := true } := by
  simp only [handleMeleeAttack, hw]
  rw [if_neg (not_lt.mpr hc)]

/-- C6: a standard attack resolves exactly when
`now - lastAttackTimestamp ≥ cooldownMs`: `canAttack` is that comparison;
below the cooldown `handleMeleeAttack` rejects with no state change; at or
above it the attacker is stamped (`lastAttackTime := now`,
`isAttacking := true`).  With the sword archetype (cooldown 1000 ms): an
attack `now` succeeds, a retry 500 ms later is rejected unchanged, and a
retry 1001 ms after the first succeeds again. -/
theorem attack_cooldown_gating :
    (∀ (weapon : WeaponConfig) (p : Player) (now : ℚ),
      canAttack weapon p now = true ↔ weapon.cooldown ≤ now - p.lastAttackTime) ∧
    (∀ (attacker : Player) (dirX dirZ : ℚ) (players : List (String × Player))
        (now : ℚ) (weapon : WeaponConfig),
      WEAPONS attacker.weaponType = some weapon →
      now - attacker.lastAttackTime < weapon.cooldown →
      handleMeleeAttack attacker dirX dirZ players now = (attacker, players, [])) ∧
    (∀ (attacker : Player) (dirX dirZ : ℚ) (players : List (String × Player))
        (now : ℚ) (weapon : WeaponConfig),
      WEAPONS attacker.weaponType = some weapon →
      weapon.cooldown ≤ now - attacker.lastAttackTime →
      (handleMeleeAttack attacker dirX dirZ players now).1 =
        { attacker with lastAttackTime := now, isAttacking := true }) ∧
    (∀ (attacker : Player) (dirX dirZ : ℚ) (players : List (String × Player)) (now : ℚ),
      attacker.weaponType = "SWORD" →
      1000 ≤ now - attacker.lastAttackTime →
      (handleMeleeAttack attacker dirX dirZ players now).1.lastAttackTime = now ∧
        handleMeleeAttack (handleMeleeAttack attacker dirX dirZ players now).1 dirX dirZ
            (handleMeleeAttack attacker dirX dirZ players now).2.1 (now + 500) =
          ((handleMeleeAttack attacker dirX dirZ players now).1,
            (handleMeleeAttack attacker dirX dirZ players now).2.1, []) ∧
        (handleMeleeAttack (handleMeleeAttack attacker dirX dirZ players now).1 dirX dirZ
            (handleMeleeAttack attacker dirX dirZ players now).2.1
            (now + 1001)).1.lastAttackTime = now + 1001) := by
  refine ⟨?_, ?_, ?_, ?_⟩
  · intro weapon p now
    simp [canAttack]
  · intro attacker dirX dirZ players now weapon hw hc
    exact handleMeleeAttack_reject attacker dirX dirZ players now weapon hw hc
  · intro attacker dirX dirZ players now weapon hw hc
    exact handleMeleeAttack_success_fst attacker dirX dirZ players now weapon hw hc
  · intro attacker dirX dirZ players now hword hc
    have hw : WEAPONS attacker.weaponType = some ⟨"Spada", 2, 1, 1000, none⟩ := by
      rw [hword]
      rfl
    have h1 := handleMeleeAttack_success_fst attacker dirX dirZ players now
      ⟨"Spada", 2, 1, 1000, none⟩ hw (by dsimp only; linarith)
    have hwt : (handleMeleeAttack attacker dirX dirZ players now).1.weaponType = "SWORD" := by
      rw [h1]
      exact hword
    have hlat : (handleMeleeAttack attacker dirX dirZ players now).1.lastAttackTime = now := by
      rw [h1]
    have hw1 : WEAPONS (handleMeleeAttack attacker dirX dirZ players now).1.weaponType =
        some ⟨"Spada", 2, 1, 1000, none⟩ := by
      rw [hwt]
      rfl
    refine ⟨hlat, ?_, ?_⟩
    · exact handleMeleeAttack_reject _ dirX dirZ _ (now + 500)
        ⟨"Spada", 2, 1, 1000, none⟩ hw1 (by rw [hlat]; norm_num)
    · have h2 := handleMeleeAttack_success_fst
        (handleMeleeAttack attacker dirX dirZ players now).1 dirX dirZ
        (handleMeleeAttack attacker dirX dirZ players now).2.1 (now + 1001)
        ⟨"Spada", 2, 1, 1000, none⟩ hw1 (by dsimp only; rw [hlat]; norm_num)
      rw [h2]

/-- Witness for C6 at a concrete sword attacker and the 0 / 500 / 1001 ms
schedule. -/
theorem attack_cooldown_gating_witness :
    (canAttack ⟨"Spada", 2, 1, 1000, none⟩ { weaponType := "SWORD", lastAttackTime := -1000 } 0 =
        true ↔ (1000 : ℚ) ≤ 0 - (-1000)) ∧
      (handleMeleeAttack { weaponType := "SWORD", lastAttackTime := -1000 } 0 1 [] 0).1.lastAttackTime
        = 0 := by
  constructor
  · exact attack_cooldown_gating.1 ⟨"Spada", 2, 1, 1000, none⟩
      { weaponType := "SWORD", lastAttackTime := -1000 } 0
  · exact (attack_cooldown_gating.2.2.2 { weaponType := "SWORD", lastAttackTime := -1000 }
      0 1 [] 0 rfl (by norm_num)).1

/-- The move handler ignores the intent when the match is not active. -/
theorem handlePlayerMove_inactive (s : BattleState) (sessionId : String)
    (input : PlayerInput) (hga : s.gameActive = false) :
    handlePlayerMove s sessionId input = s := by
  simp only [handlePlayerMove]
  cases hlp : lookupPlayer s.players sessionId with
  | none => rfl
  | some player =>
    dsimp only
    rw [if_pos (Or.inr hga)]

/-- The attack handler ignores the intent when the match is not active. -/
theorem handlePlayerAttack_inactive (s : BattleState) (sessionId : String)
    (dirX dirZ now : ℚ) (hga : s.gameActive = false) :
    handlePlayerAttack s sessionId dirX dirZ now = s := by
  simp only [handlePlayerAttack]
  cases hlp : lookupPlayer s.players sessionId with
  | none => rfl
  | some player =>
    dsimp only
    rw [if_pos (Or.inr hga)]

/-- C8: inbound movement or attack intents from an absent sender, a dead
sender, or outside the active phase are silently dropped with the
authoritative state completely unchanged; and an attack whose weapon
archetype key has no configuration resolves as a no-op returning no hits
(both for the standard melee resolution and for hitbox-sample detection)
rather than crashing. -/
theorem invalid_inputs_ignored :
    (∀ (s : BattleState) (sessionId : String) (input : PlayerInput),
      lookupPlayer s.players sessionId = none →
      handlePlayerMove s sessionId input = s) ∧
    (∀ (s : BattleState) (sessionId : String) (input : PlayerInput) (player : Player),
      lookupPlayer s.players sessionId = some player →
      player.isAlive = false ∨ s.gameActive = false →
      handlePlayerMove s sessionId input = s) ∧
    (∀ (s : BattleState) (sessionId : String) (dirX dirZ now : ℚ),
      lookupPlayer s.players sessionId = none →
      handlePlayerAttack s sessionId dirX dirZ now = s) ∧
    (∀ (s : BattleState) (sessionId : String) (dirX dirZ now : ℚ) (player : Player),
      lookupPlayer s.players sessionId = some player →
      player.isAlive = false ∨ s.gameActive = false →
      handlePlayerAttack s sessionId dirX dirZ now = s) ∧
    (∀ (attacker : Player) (dirX dirZ : ℚ) (players : List (String × Player)) (now : ℚ),
      WEAPONS attacker.weaponType = none →
      handleMeleeAttack attacker dirX dirZ players now = (attacker, players, [])) ∧
    (∀ (attacker : Player) (weaponTip weaponBase : Vec3)
        (players : List (String × Player)) (checkCooldown : Bool) (now : ℚ),
      WEAPONS attacker.weaponType = none →
      handleWeaponHitboxAttack attacker weaponTip weaponBase players checkCooldown now =
        (attacker, [])) := by
  refine ⟨?_, ?_, ?_, ?_, ?_, ?_⟩
  · intro s sessionId input hnone
    simp only [handlePlayerMove, hnone]
  · intro s sessionId input player hsome hguard
    simp only [handlePlayerMove, hsome]
    rw [if_pos hguard]
  · intro s sessionId dirX dirZ now hnone
    simp only [handlePlayerAttack, hnone]
  · intro s sessionId dirX dirZ now player hsome hguard
    simp only [handlePlayerAttack, hsome]
    rw [if_pos hguard]
  · intro attacker dirX dirZ players now hnone
    simp only [handleMeleeAttack, hnone]
  · intro attacker weaponTip weaponBase players checkCooldown now hnone
    simp only [handleWeaponHitboxAttack, hnone]

/-- Witness for C8: an empty room ignores both intents; the one-player dead
and inactive-phase guards fire; an unconfigured archetype resolves as a
no-op with no hits. -/
theorem invalid_inputs_ignored_witness :
    handlePlayerMove { } "a" ⟨1, 1, 0⟩ = { } ∧
      handlePlayerAttack { } "a" 0 1 0 = { } ∧
      handlePlayerMove { players := [("a", { isAlive := false })], gameActive := true }
        "a" ⟨1, 1, 0⟩ =
        { players := [("a", { isAlive := false })], gameActive := true } ∧
      handleMeleeAttack { weaponType := "AXE" } 0 1 [] 0 = ({ weaponType := "AXE" }, [], []) ∧
      handleWeaponHitboxAttack { weaponType := "AXE" } ⟨0, 0, 0⟩ ⟨1, 1, 1⟩ [] true 0 =
        ({ weaponType := "AXE" }, []) := by
  refine ⟨?_, ?_, ?_, ?_, ?_⟩
  · exact invalid_inputs_ignored.1 { } "a" ⟨1, 1, 0⟩ (by simp [lookupPlayer])
  · exact invalid_inputs_ignored.2.2.1 { } "a" 0 1 0 (by simp [lookupPlayer])
  · exact invalid_inputs_ignored.2.1
      { players := [("a", { isAlive := false })], gameActive := true } "a" ⟨1, 1, 0⟩
      { isAlive := false } (by simp [lookupPlayer]) (Or.inl rfl)
  · exact invalid_inputs_ignored.2.2.2.2.1 { weaponType := "AXE" } 0 1 [] 0 rfl
  · exact invalid_inputs_ignored.2.2.2.2.2 { weaponType := "AXE" } ⟨0, 0, 0⟩ ⟨1, 1, 1⟩ [] true 0 rfl

/-- Witness for C1: the segment from the origin to (2,0,0) passes within
distance 1 of the centre (1,1,0). -/
theorem lineIntersectsSphere_iff_min_dist_le_witness :
    ∃ t : ℚ, 0 ≤ t ∧ t ≤ 1 ∧
      Real.sqrt ((distSq ⟨1, 1, 0⟩ (segPoint ⟨0, 0, 0⟩ ⟨2, 0, 0⟩ t) : ℚ) : ℝ) ≤ ((1 : ℚ) : ℝ) :=
  (lineIntersectsSphere_iff_min_dist_le ⟨0, 0, 0⟩ ⟨2, 0, 0⟩ ⟨1, 1, 0⟩ 1 (by norm_num)).1.mp
    (by norm_num [lineIntersectsSphere])

/-- C5: once the cooldown gate passes, a standard melee attack hits a target
id iff the player map holds a target under that id that is another alive
player within the weapon's range (horizontal distance) and in front of the
attacker (strictly positive dot product of the facing vector
`(sin rotation, cos rotation)` with the attacker-to-target vector); all
such ids are returned — hence damaged — by the one invocation.  A target
placed directly behind the attacker at half the configured range fails the
per-target test. -/
theorem melee_hit_characterisation (attacker : Player) (dirX dirZ : ℚ)
    (allPlayers : List (String × Player)) (currentTime : ℚ) (weapon : WeaponConfig)
    (hw : WEAPONS attacker.weaponType = some weapon)
    (hcd : weapon.cooldown ≤ currentTime - attacker.lastAttackTime)
    (hunit : dirX ^ 2 + dirZ ^ 2 = 1) :
    (∀ targetId : String,
      targetId ∈ (handleMeleeAttack attacker dirX dirZ allPlayers currentTime).2.2 ↔
        ∃ target : Player, (targetId, target) ∈ allPlayers ∧
          targetId ≠ attacker.sessionId ∧ target.isAlive = true ∧
          distSqH attacker.position target.position ≤ weapon.range * weapon.range ∧
          0 < dirX * (target.position.x - attacker.position.x) +
            dirZ * (target.position.z - attacker.position.z)) ∧
    (∀ (targetId : String) (target : Player), 0 < weapon.range →
      target.position.x = attacker.position.x - weapon.range / 2 * dirX →
      target.position.z = attacker.position.z - weapon.range / 2 * dirZ →
      meleeTargetHit weapon attacker dirX dirZ targetId target = false) := by
  constructor
  · intro targetId
    simp only [handleMeleeAttack, hw]
    rw [if_neg (not_lt.mpr hcd)]
    dsimp only
    constructor
    · intro h
      obtain ⟨p, hp, hfst⟩ := List.mem_map.mp h
      obtain ⟨hmem, hpred⟩ := List.mem_filter.mp hp
      simp only [meleeTargetHit, Bool.and_eq_true, decide_eq_true_eq] at hpred
      refine ⟨p.2, ?_, ?_, ?_, ?_, ?_⟩
      · rw [← hfst]
        simpa using hmem
      · rw [← hfst]
        exact hpred.1.1.1
      · exact hpred.1.1.2
      · exact hpred.1.2
      · exact hpred.2
    · rintro ⟨target, hmem, hne, halive, hdist, hdot⟩
      refine List.mem_map.mpr ⟨(targetId, target), List.mem_filter.mpr ⟨hmem, ?_⟩, rfl⟩
      simp only [meleeTargetHit, Bool.and_eq_true, decide_eq_true_eq]
      exact ⟨⟨⟨hne, halive⟩, hdist⟩, hdot⟩
  · intro targetId target hrange hx hz
    simp only [meleeTargetHit]
    have hdot : dirX * (target.position.x - attacker.position.x) +
        dirZ * (target.position.z - attacker.position.z) =
        -(weapon.range / 2) := by
      rw [hx, hz]
      nlinarith [hunit]
    have : decide (0 < dirX * (target.position.x - attacker.position.x) +
        dirZ * (target.position.z - attacker.position.z)) = false := by
      apply decide_eq_false
      rw [hdot]
      intro hlt
      nlinarith
    rw [this, Bool.and_false]

/-- Sword archetype constant used by the C5 witness. -/
def swordWeapon : WeaponConfig := ⟨"Spada", 2, 1, 1000, none⟩

/-- Attacker at the origin facing +z, used by the C5 witness. -/
def meleeAttackerW : Player := { sessionId := "A", weaponType := "SWORD" }

/-- Target half a sword range in front of the attacker (C5 witness). -/
def meleeFrontTargetW : Player := { sessionId := "B", position := ⟨0, 0, 1 / 2⟩ }

/-- Target directly behind the attacker at half the sword range (C5 witness). -/
def meleeBehindTargetW : Player := { sessionId := "C", position := ⟨0, 0, -(1 / 2)⟩ }

/-- Witness for C5: facing +z, the in-front target at half range is hit and
the directly-behind target at half range fails the per-target test. -/
theorem melee_hit_characterisation_witness :
    ("B" ∈ (handleMeleeAttack meleeAttackerW 0 1 [("B", meleeFrontTargetW)] 1000).2.2 ↔
      ∃ target : Player, ("B", target) ∈ [("B", meleeFrontTargetW)] ∧
        "B" ≠ meleeAttackerW.sessionId ∧ target.isAlive = true ∧
        distSqH meleeAttackerW.position target.position ≤
          swordWeapon.range * swordWeapon.range ∧
        0 < 0 * (target.position.x - meleeAttackerW.position.x) +
          1 * (target.position.z - meleeAttackerW.position.z)) ∧
      meleeTargetHit swordWeapon meleeAttackerW 0 1 "C" meleeBehindTargetW = false := by
  have h := melee_hit_characterisation meleeAttackerW 0 1 [("B", meleeFrontTargetW)] 1000
    swordWeapon (by rfl) (by norm_num [meleeAttackerW, swordWeapon]) (by norm_num)
  exact ⟨h.1 "B", h.2 "C" meleeBehindTargetW (by norm_num [swordWeapon])
    (by norm_num [meleeBehindTargetW, meleeAttackerW, swordWeapon])
    (by norm_num [meleeBehindTargetW, meleeAttackerW, swordWeapon])⟩

/-- Ids already in the per-swing set stay in it through the duplicate filter. -/
theorem dedupHits_mem_fst (hits : List String) :
    ∀ (alreadyHit : List String) (t : String),
      t ∈ alreadyHit → t ∈ (dedupHits alreadyHit hits).1 := by
  induction hits with
  | nil =>
    intro alreadyHit t ht
    simpa [dedupHits] using ht
  | cons tid rest ih =>
    intro alreadyHit t ht
    simp only [dedupHits]
    split
    · exact ih alreadyHit t ht
    · exact ih (tid :: alreadyHit) t (List.mem_cons_of_mem tid ht)

/-- An id already in the per-swing set is never credited again. -/
theorem dedupHits_not_mem_snd (hits : List String) :
    ∀ (alreadyHit : List String) (t : String),
      t ∈ alreadyHit → t ∉ (dedupHits alreadyHit hits).2 := by
  induction hits with
  | nil =>
    intro alreadyHit t ht
    simp [dedupHits]
  | cons tid rest ih =>
    intro alreadyHit t ht
    simp only [dedupHits]
    split
    · exact ih alreadyHit t ht
    · rename_i htid
      intro hmem
      rcases List.mem_cons.mp hmem with heq | hmem2
      · exact htid (heq ▸ ht)
      · exact ih (tid :: alreadyHit) t (List.mem_cons_of_mem tid ht) hmem2

/-- A credited id ends up in the grown per-swing set. -/
theorem dedupHits_snd_subset_fst (hits : List String) :
    ∀ (alreadyHit : List String) (t : String),
      t ∈ (dedupHits alreadyHit hits).2 → t ∈ (dedupHits alreadyHit hits).1 := by
  induction hits with
  | nil =>
    intro alreadyHit t ht
    simp [dedupHits] at ht
  | cons tid rest ih =>
    intro alreadyHit t ht
    simp only [dedupHits] at ht ⊢
    split at ht
    · rename_i htid
      rw [if_pos htid]
      exact ih alreadyHit t ht
    · rename_i htid
      rw [if_neg htid]
      rcases List.mem_cons.mp ht with heq | hmem2
      · exact dedupHits_mem_fst rest (tid :: alreadyHit) t
          (heq ▸ List.mem_cons_self tid alreadyHit)
      · exact ih (tid :: alreadyHit) t hmem2

/-- One pass of the duplicate filter credits each id at most once. -/
theorem dedupHits_count_le_one (hits : List String) :
    ∀ (alreadyHit : List String) (t : String),
      ((dedupHits alreadyHit hits).2.count t) ≤ 1 := by
  induction hits with
  | nil =>
    intro alreadyHit t
    simp [dedupHits]
  | cons tid rest ih =>
    intro alreadyHit t
    simp only [dedupHits]
    split
    · exact ih alreadyHit t
    · rename_i htid
      rw [List.count_cons]
      by_cases heq : t = tid
      · have hnot : t ∉ (dedupHits (tid :: alreadyHit) rest).2 :=
          dedupHits_not_mem_snd rest (tid :: alreadyHit) t
            (by rw [heq]; exact List.mem_cons_self tid alreadyHit)
        rw [List.count_eq_zero.mpr hnot]
        split <;> omega
      · have hz : (tid == t) = false := beq_eq_false_iff_ne.mpr (Ne.symm heq)
        rw [hz]
        simpa using ih (tid :: alreadyHit) t

/-- Shape of one swing-sample step: either a rejected first sample (state
and attacker unchanged, nothing credited) or a duplicate-filtered credit
step that leaves the swing active. -/
theorem handleHitboxAttack_shape (weapon : WeaponConfig) (st : HitboxSwingState)
    (attacker : Player) (tip base : Vec3) (players : List (String × Player)) (now : ℚ) :
    handleHitboxAttack weapon st attacker tip base players now = (st, attacker, []) ∨
    ∃ (a' : Player) (base0 hits0 : List String),
      handleHitboxAttack weapon st attacker tip base players now =
        (⟨true, (dedupHits base0 hits0).1⟩, a', (dedupHits base0 hits0).2) := by
  simp only [handleHitboxAttack]
  split
  · split
    · exact Or.inl rfl
    · exact Or.inr ⟨_, [], _, rfl⟩
  · exact Or.inr ⟨attacker, st.swingHitPlayers, _, rfl⟩

/-- During an active swing, one sample step filters against the current
per-swing set, leaves the attacker untouched and keeps the swing active. -/
theorem handleHitboxAttack_shape_active (weapon : WeaponConfig) (st : HitboxSwingState)
    (attacker : Player) (tip base : Vec3) (players : List (String × Player)) (now : ℚ)
    (hact : st.activeSwing = true) :
    ∃ hits0 : List String,
      handleHitboxAttack weapon st attacker tip base players now =
        (⟨true, (dedupHits st.swingHitPlayers hits0).1⟩, attacker,
          (dedupHits st.swingHitPlayers hits0).2) := by
  simp only [handleHitboxAttack]
  rw [if_neg (by simp [hact])]
  exact ⟨_, rfl⟩

/-- Once an id sits in the active per-swing set, the rest of the swing
credits it zero times. -/
theorem runSwing_count_zero (weapon : WeaponConfig) (samples : List SwingSample) :
    ∀ (st : HitboxSwingState) (attacker : Player) (t : String),
      st.activeSwing = true → t ∈ st.swingHitPlayers →
      (runSwing weapon st attacker samples).count t = 0 := by
  induction samples with
  | nil =>
    intro st attacker t hact hmem
    simp [runSwing]
  | cons sample rest ih =>
    intro st attacker t hact hmem
    obtain ⟨hits0, heq⟩ := handleHitboxAttack_shape_active weapon st attacker
      sample.weaponTip sample.weaponBase sample.allPlayers sample.currentTime hact
    simp only [runSwing, List.count_append, heq]
    have hz1 : ((dedupHits st.swingHitPlayers hits0).2.count t) = 0 :=
      List.count_eq_zero.mpr (dedupHits_not_mem_snd hits0 st.swingHitPlayers t hmem)
    have hz2 := ih ⟨true, (dedupHits st.swingHitPlayers hits0).1⟩ attacker t rfl
      (dedupHits_mem_fst hits0 st.swingHitPlayers t hmem)
    omega

/-- C3: within one continuous swing — starting untracked, across any
sequence of streamed hitbox samples (each with its own weapon segment,
player map and time) — no target id is credited with more than one hit,
even if several samples\u0027 weapon segments intersect that target\u0027s hitbox
sphere. -/
theorem swing_credits_each_target_at_most_once (weapon : WeaponConfig)
    (attacker : Player) (samples : List SwingSample) (targetId : String) :
    (runSwing weapon ⟨false, []⟩ attacker samples).count targetId ≤ 1 := by
  suffices h : ∀ (samples : List SwingSample) (st : HitboxSwingState) (attacker : Player),
      (runSwing weapon st attacker samples).count targetId ≤ 1 by
    exact h samples ⟨false, []⟩ attacker
  intro samples
  induction samples with
  | nil =>
    intro st attacker
    simp [runSwing]
  | cons sample rest ih =>
    intro st attacker
    rcases handleHitboxAttack_shape weapon st attacker sample.weaponTip sample.weaponBase
        sample.allPlayers sample.currentTime with heq | ⟨a', base0, hits0, heq⟩
    · simp only [runSwing, List.count_append, heq]
      simpa using ih st attacker
    · simp only [runSwing, List.count_append, heq]
      by_cases hmem : targetId ∈ (dedupHits base0 hits0).2
      · have h1 := dedupHits_count_le_one hits0 base0 targetId
        have h2 := runSwing_count_zero weapon rest ⟨true, (dedupHits base0 hits0).1⟩ a'
          targetId rfl (dedupHits_snd_subset_fst hits0 base0 targetId hmem)
        omega
      · rw [List.count_eq_zero.mpr hmem]
        simpa using ih ⟨true, (dedupHits base0 hits0).1⟩ a'

/-- With zero alive players every map entry is dead. -/
theorem countAlive_zero_all_dead (players : List (String × Player))
    (hc : countAlivePlayers players = 0) :
    ∀ (wid : String) (wp : Player), (wid, wp) ∈ players → wp.isAlive = false := by
  intro wid wp hmem
  have hnil : players.filter (fun p => p.2.isAlive) = [] :=
    List.length_eq_zero.mp hc
  have := List.filter_eq_nil_iff.mp hnil (wid, wp) hmem
  simpa using this

/-- With exactly one alive entry, `findWinner` returns that entry's player. -/
theorem findWinner_unique (players : List (String × Player)) :
    ∀ (wid : String) (wp : Player), countAlivePlayers players = 1 →
      (wid, wp) ∈ players → wp.isAlive = true → findWinner players = some wp := by
  induction players with
  | nil =>
    intro wid wp hcount hmem halive
    exact absurd hmem (List.not_mem_nil _)
  | cons hd rest ih =>
    intro wid wp hcount hmem halive
    obtain ⟨id0, p0⟩ := hd
    cases hp0 : p0.isAlive with
    | true =>
      have hrest : countAlivePlayers rest = 0 := by
        simp only [countAlivePlayers, List.filter_cons, hp0, if_true, List.length_cons] at hcount
        simpa [countAlivePlayers] using hcount
      have hfw : findWinner ((id0, p0) :: rest) = some p0 := by
        simp only [findWinner]
        rw [List.find?_cons_of_pos rest (by simpa using hp0)]
        rfl
      rcases List.mem_cons.mp hmem with heq | hmem2
      · have hwp : wp = p0 := congrArg Prod.snd heq
        rw [hwp]
        exact hfw
      · exact absurd halive
          (by simp [countAlive_zero_all_dead rest hrest wid wp hmem2])
    | false =>
      have hstep : findWinner ((id0, p0) :: rest) = findWinner rest := by
        simp only [findWinner]
        rw [List.find?_cons_of_neg rest (by simp [hp0])]
      rcases List.mem_cons.mp hmem with heq | hmem2
      · exfalso
        have : wp = p0 := congrArg Prod.snd heq
        rw [this, hp0] at halive
        exact Bool.false_ne_true halive
      · have hrest : countAlivePlayers rest = 1 := by
          simpa [countAlivePlayers, List.filter_cons, hp0] using hcount
        rw [hstep]
        exact ih wid wp hrest hmem2 halive

/-- Computation of the victory check over an active, not-yet-ended state with
at most one alive player. -/
theorem checkVictory_run (s : BattleState) (ha : s.gameActive = true)
    (he : s.gameEnded = false) (hc : countAlivePlayers s.players ≤ 1) :
    checkVictoryCondition s =
      (match findWinner s.players with
        | some w =>
          ({ s with gameEnded := true, gameActive := false, winnerId := w.sessionId, winnerName := w.name },
            some (w.sessionId, w.name))
        | none =>
          ({ s with gameEnded := true, gameActive := false }, some ("", "Nessuno"))) := by
  simp only [checkVictoryCondition]
  rw [if_neg (by simp [ha, he]), if_pos hc]

/-- A state already marked ended is left untouched by the victory check. -/
theorem checkVictory_frozen (s : BattleState) (he : s.gameEnded = true) :
    checkVictoryCondition s = (s, none) := by
  simp only [checkVictoryCondition]
  rw [if_pos (Or.inr he)]

/-- A state already marked ended is left untouched by the tick. -/
theorem updateTick_frozen (s : BattleState) (deltaTime : ℚ) (he : s.gameEnded = true) :
    updateTick s deltaTime = s := by
  simp only [updateTick]
  rw [if_pos (Or.inr he)]

/-- Lethal damage zeroes hp and clears the alive flag. -/
theorem applyDamage_lethal (p : Player) (d : ℚ) (h : p.hp ≤ d) :
    (applyDamage p d).isAlive = false ∧ (applyDamage p d).hp = 0 := by
  have hm : max 0 (p.hp - d) = 0 := max_eq_left (by linarith)
  simp only [applyDamage]
  rw [if_pos (by rw [hm] : (max 0 (p.hp - d) ≤ 0))]
  exact ⟨rfl, rfl⟩

/-- C7: whenever the victory check runs on an active, not-yet-ended match
with at most one alive player, the match transitions to ended
(`gameEnded = true`, `gameActive = false`) and is frozen — the victory
check, the tick, and the move/attack handlers all leave the ended state
unchanged.  With exactly one alive player that player's id and name are
recorded and announced; with zero alive players the match ends announcing
no winner.  In particular, in a two-player match, lethal damage to one
player ends the match with the other as winner. -/
theorem victory_check_freezes_and_selects_winner :
    (∀ (s : BattleState) (deltaTime : ℚ) (sessionId : String) (input : PlayerInput)
        (dirX dirZ now : ℚ),
      s.gameActive = true → s.gameEnded = false → countAlivePlayers s.players ≤ 1 →
      (checkVictoryCondition s).1.gameEnded = true ∧
        (checkVictoryCondition s).1.gameActive = false ∧
        checkVictoryCondition (checkVictoryCondition s).1 =
          ((checkVictoryCondition s).1, none) ∧
        updateTick (checkVictoryCondition s).1 deltaTime = (checkVictoryCondition s).1 ∧
        handlePlayerMove (checkVictoryCondition s).1 sessionId input =
          (checkVictoryCondition s).1 ∧
        handlePlayerAttack (checkVictoryCondition s).1 sessionId dirX dirZ now =
          (checkVictoryCondition s).1) ∧
    (∀ (s : BattleState) (wid : String) (wp : Player),
      s.gameActive = true → s.gameEnded = false →
      countAlivePlayers s.players = 1 → (wid, wp) ∈ s.players → wp.isAlive = true →
      (checkVictoryCondition s).1.winnerId = wp.sessionId ∧
        (checkVictoryCondition s).1.winnerName = wp.name ∧
        (checkVictoryCondition s).2 = some (wp.sessionId, wp.name)) ∧
    (∀ s : BattleState, s.gameActive = true → s.gameEnded = false →
      countAlivePlayers s.players = 0 →
      (checkVictoryCondition s).1.gameEnded = true ∧
        (checkVictoryCondition s).2 = some ("", "Nessuno") ∧
        (checkVictoryCondition s).1.winnerId = s.winnerId) ∧
    (∀ (s : BattleState) (ida idb : String) (pa pb : Player) (d : ℚ),
      s.players = [(ida, pa), (idb, applyDamage pb d)] →
      s.gameActive = true → s.gameEnded = false →
      pa.isAlive = true → pb.hp ≤ d →
      (checkVictoryCondition s).1.gameEnded = true ∧
        (checkVictoryCondition s).1.winnerId = pa.sessionId ∧
        (checkVictoryCondition s).2 = some (pa.sessionId, pa.name)) := by
  have hend : ∀ s : BattleState, s.gameActive = true → s.gameEnded = false →
      countAlivePlayers s.players ≤ 1 →
      (checkVictoryCondition s).1.gameEnded = true ∧
        (checkVictoryCondition s).1.gameActive = false := by
    intro s ha he hc
    rw [checkVictory_run s ha he hc]
    cases findWinner s.players <;> exact ⟨rfl, rfl⟩
  refine ⟨?_, ?_, ?_, ?_⟩
  · intro s deltaTime sessionId input dirX dirZ now ha he hc
    obtain ⟨h1, h2⟩ := hend s ha he hc
    exact ⟨h1, h2, checkVictory_frozen _ h1, updateTick_frozen _ deltaTime h1,
      handlePlayerMove_inactive _ sessionId input h2,
      handlePlayerAttack_inactive _ sessionId dirX dirZ now h2⟩
  · intro s wid wp ha he hc hmem halive
    have hfw := findWinner_unique s.players wid wp hc hmem halive
    rw [checkVictory_run s ha he (by omega), hfw]
    exact ⟨rfl, rfl, rfl⟩
  · intro s ha he hc
    have hfind : List.find? (fun p => p.2.isAlive) s.players = none := by
      rw [List.find?_eq_none]
      intro x hx
      simp [countAlive_zero_all_dead s.players hc x.1 x.2 hx]
    have hfw : findWinner s.players = none := by
      simp [findWinner, hfind]
    rw [checkVictory_run s ha he (by omega), hfw]
    exact ⟨rfl, rfl, rfl⟩
  · intro s ida idb pa pb d hplayers ha he hpa hlethal
    have hdead := (applyDamage_lethal pb d hlethal).1
    have hcount : countAlivePlayers s.players = 1 := by
      rw [hplayers]
      simp [countAlivePlayers, List.filter_cons, hpa, hdead]
    have hmem : (ida, pa) ∈ s.players := by
      rw [hplayers]
      exact List.mem_cons_self _ _
    have hwin := findWinner_unique s.players ida pa hcount hmem hpa
    have hrun := checkVictory_run s ha he (by omega)
    rw [hwin] at hrun
    dsimp only at hrun
    rw [hrun]
    exact ⟨rfl, rfl, rfl⟩

/-- Two-player end state used by the C7 witness. -/
def duelState : BattleState :=
  { players := [("a", { sessionId := "a", name := "Alice" }),
      ("b", applyDamage { sessionId := "b", name := "Bob" } 10)]
    gameActive := true }

/-- Witness for C7: in a concrete two-player match, lethal damage to one
player ends the match with the other recorded and announced as winner. -/
theorem victory_check_freezes_and_selects_winner_witness :
    (checkVictoryCondition duelState).1.gameEnded = true ∧
      (checkVictoryCondition duelState).1.winnerId = "a" ∧
      (checkVictoryCondition duelState).2 = some ("a", "Alice") :=
  victory_check_freezes_and_selects_winner.2.2.2 duelState "a" "b"
    { sessionId := "a", name := "Alice" } { sessionId := "b", name := "Bob" } 10
    rfl rfl rfl rfl (by norm_num)

end CopilotGame
